import Mathlib

/-!
Verification of the CNJ process-number mask and the legal-case deadline
logic of the b3-trading-platform frontend.

Strings are modelled as `List Char`.  The two components under study are

* `formatProcessNumber` from the CNJ search component: it strips every
  non-digit character and applies the CNJ mask `NNNNNNN-DD.AAAA.J.TR.OOOO`
  through a cascade of length-guarded slice concatenations;

* `getDaysUntilDeadline` / `isUrgent` from the legal-case dashboard:
  deadline parsing through the host `Date` constructor, day distance by
  `Math.ceil((deadline - now) / 86_400_000)`, and the urgency window
  `0 ≤ days ≤ 7`.

JavaScript numbers that can be `NaN` are modelled as `Option Int`
(`none` = `NaN`); `new Date(s)` on an unparseable string yields an
*invalid date* (it never throws), whose `getTime()` is `NaN`.
-/

namespace B3

/-- One character of the JavaScript digit class `[0-9]`; the source strips
`\D`, i.e. everything outside this class. -/
def isDigitChar (c : Char) : Bool :=
  decide ('0' ≤ c) && decide (c ≤ '9')

/-- The two separator characters the CNJ mask inserts. -/
def isSepChar (c : Char) : Bool :=
  c == '-' || c == '.'

/-- The digit run of a string: `value.replace(/\D/g, '')`. -/
def extractDigits (s : List Char) : List Char :=
  s.filter isDigitChar

/-- The branch cascade of `formatProcessNumber` applied to the digit run
`numbers`; JS `slice(a, b)` is `(List.drop a) ∘ (List.take (b - a))` and
`slice(a)` is `List.drop a`, concatenated in template-literal order. -/
def fmtCore (numbers : List Char) : List Char :=
  if numbers.length ≤ 7 then
    numbers
  else if numbers.length ≤ 9 then
    numbers.take 7 ++ '-' :: numbers.drop 7
  else if numbers.length ≤ 13 then
    numbers.take 7 ++ '-' :: ((numbers.drop 7).take 2 ++ '.' :: numbers.drop 9)
  else if numbers.length ≤ 14 then
    numbers.take 7 ++ '-' :: ((numbers.drop 7).take 2 ++ '.' ::
      ((numbers.drop 9).take 4 ++ '.' :: numbers.drop 13))
  else if numbers.length ≤ 16 then
    numbers.take 7 ++ '-' :: ((numbers.drop 7).take 2 ++ '.' ::
      ((numbers.drop 9).take 4 ++ '.' ::
        ((numbers.drop 13).take 1 ++ '.' :: numbers.drop 14)))
  else
    numbers.take 7 ++ '-' :: ((numbers.drop 7).take 2 ++ '.' ::
      ((numbers.drop 9).take 4 ++ '.' ::
        ((numbers.drop 13).take 1 ++ '.' ::
          ((numbers.drop 14).take 2 ++ '.' :: (numbers.drop 16).take 4))))

/-- `formatProcessNumber` from the CNJ search component: first
`value.replace(/\D/g, '')`, then the length-guarded mask cascade. -/
def formatProcessNumber (value : List Char) : List Char :=
  fmtCore (value.filter isDigitChar)

/-- Modelled from the spec: the separator the grouping boundary table
7-2-4-1-2-4 inserts immediately before the digit at zero-based index `i`
(`-` after the 7th digit, `.` after the 9th, 13th, 14th and 16th). -/
def sepBefore (i : Nat) : List Char :=
  if i = 7 then ['-']
  else if i = 9 ∨ i = 13 ∨ i = 14 ∨ i = 16 then ['.']
  else []

/-- Modelled from the spec: emit the digits one by one, inserting the
boundary separator in front of each digit whose index is a boundary. -/
def maskAux : Nat → List Char → List Char
  | _, [] => []
  | i, c :: cs => sepBefore i ++ c :: maskAux (i + 1) cs

/-- Modelled from the spec: the masked rendering of a digit run —
truncate to 20 digits, then interleave the boundary separators. -/
def maskFromSpec (d : List Char) : List Char :=
  maskAux 0 (d.take 20)

/-- No two adjacent characters are both separators. -/
def noConsecSep : List Char → Bool
  | a :: b :: rest => (!(isSepChar a && isSepChar b)) && noConsecSep (b :: rest)
  | _ => true

/-! ## Legal-case deadlines (case dashboard component)

`getDaysUntilDeadline` builds a `Date` from the stored deadline string and
takes `Math.ceil((deadline - now) / 86_400_000)`.  The host `Date`
constructor never throws: on an unparseable string it yields an *invalid
date* whose `getTime()` is `NaN`, so the `try/catch` around the body is
dead code and `NaN` propagates (`Option.none` below).  Timestamps are
milliseconds since the Unix epoch. -/

/-- Numeric value of an ASCII digit. -/
def digitVal (c : Char) : Nat := c.toNat - '0'.toNat

/-- Two ASCII digits at the front of the input, and the rest. -/
def parse2 : List Char → Option (Nat × List Char)
  | a :: b :: rest =>
      if isDigitChar a && isDigitChar b then
        some (digitVal a * 10 + digitVal b, rest)
      else none
  | _ => none

/-- Four ASCII digits at the front of the input, and the rest. -/
def parse4 : List Char → Option (Nat × List Char)
  | a :: b :: c :: d :: rest =>
      if isDigitChar a && isDigitChar b && isDigitChar c && isDigitChar d then
        some (digitVal a * 1000 + digitVal b * 100 + digitVal c * 10 + digitVal d,
          rest)
      else none
  | _ => none

/-- Gregorian leap year. -/
def isLeap (y : Int) : Bool :=
  y % 4 == 0 && (y % 100 != 0 || y % 400 == 0)

/-- Number of days of month `m` (1-12) of year `y`. -/
def daysInMonth (y : Int) (m : Nat) : Nat :=
  if m = 2 then (if isLeap y then 29 else 28)
  else if m = 4 ∨ m = 6 ∨ m = 9 ∨ m = 11 then 30
  else 31

/-- Days from the Unix epoch to the civil date `y-m-d` (proleptic
Gregorian), by the standard era decomposition with floor division. -/
def daysFromCivil (y : Int) (m d : Nat) : Int :=
  let yy : Int := if m ≤ 2 then y - 1 else y
  let era : Int := yy.fdiv 400
  let yoe : Int := yy - era * 400
  let mp : Nat := (m + 9) % 12
  let doy : Int := (153 * (mp : Int) + 2).fdiv 5 + (d : Int) - 1
  let doe : Int := yoe * 365 + yoe.fdiv 4 - yoe.fdiv 100 + doy
  era * 146097 + doe - 719468

/-- Milliseconds within the day of the optional time part: empty input is
midnight; otherwise `THH:MM:SSZ` in range. -/
def parseClock : List Char → Option Nat
  | [] => some 0
  | 'T' :: rest =>
      match parse2 rest with
      | some (h, ':' :: r1) =>
          match parse2 r1 with
          | some (mi, ':' :: r2) =>
              match parse2 r2 with
              | some (sec, ['Z']) =>
                  if h ≤ 23 && mi ≤ 59 && sec ≤ 59 then
                    some (((h * 60 + mi) * 60 + sec) * 1000)
                  else none
              | _ => none
          | _ => none
      | _ => none
  | _ => none

/-- Models the host ECMAScript date parser (`new Date(string)`) on the
ISO-8601 subset this component stores: `YYYY-MM-DD`, optionally followed
by `THH:MM:SSZ`.  A date-only string is UTC midnight.  Every other string
produces an invalid date, i.e. `none` (a `getTime()` of `NaN`) — the
constructor never throws. -/
def parseDate (s : List Char) : Option Int :=
  match parse4 s with
  | some (y, '-' :: r1) =>
      match parse2 r1 with
      | some (m, '-' :: r2) =>
          match parse2 r2 with
          | some (d, rest) =>
              if 1 ≤ m && m ≤ 12 && 1 ≤ d && d ≤ daysInMonth (y : Int) m then
                match parseClock rest with
                | some ms => some (daysFromCivil (y : Int) m d * 86400000 + (ms : Int))
                | none => none
              else none
          | none => none
      | _ => none
  | _ => none

/-- `Math.ceil (a / b)` on exact integer inputs with `0 < b`:
the ceiling of the real quotient, as `-((-a).fdiv b)`. -/
def mathCeilDiv (a b : Int) : Int := -((-a).fdiv b)

/-- `1000 * 60 * 60 * 24`. -/
def msPerDay : Int := 86400000

/-- `getDaysUntilDeadline` of the dashboard: `NaN` (`none`) when the
deadline does not parse — the `catch { return 0 }` of the source is
unreachable because `new Date` does not throw. -/
def getDaysUntilDeadline (now : Int) (deadlineString : List Char) : Option Int :=
  match parseDate deadlineString with
  | some t => some (mathCeilDiv (t - now) msPerDay)
  | none => none

/-- JavaScript `<=` on a possibly-`NaN` left operand: false on `NaN`. -/
def jsLe : Option Int → Int → Bool
  | some a, b => decide (a ≤ b)
  | none, _ => false

/-- JavaScript `>=` on a possibly-`NaN` left operand: false on `NaN`. -/
def jsGe : Option Int → Int → Bool
  | some a, b => decide (b ≤ a)
  | none, _ => false

/-- The `LegalCase` record of the dashboard; optional fields are the ones
typed `?:` in the source. -/
structure LegalCase where
  id : List Char
  title : List Char
  case_type : List Char
  status : List Char
  opened_date : List Char
  deadline_date : Option (List Char)
  court_date : Option (List Char)
  responsible_lawyer : List Char
  client_id : Option (List Char)
  opposing_party : Option (List Char)

/-- A case that differs from the all-empty one only in its deadline. -/
def mkCase (deadline : Option (List Char)) : LegalCase :=
  ⟨[], [], [], [], [], deadline, none, [], none, none⟩

/-- `isUrgent` of the dashboard: false on a falsy `deadline_date`
(absent, or the empty string); otherwise `days <= 7 && days >= 0` with
JavaScript comparison semantics on the possibly-`NaN` day count. -/
def isUrgent (now : Int) (case_ : LegalCase) : Bool :=
  match case_.deadline_date with
  | none => false
  | some s =>
      if s = [] then false
      else
        let days := getDaysUntilDeadline now s
        jsLe days 7 && jsGe days 0

lemma fmtCore_eq_maskAux_of_le : ∀ l : List Char, l.length ≤ 20 → fmtCore l = maskAux 0 l
  | [], _ => rfl
  | [a1], _ => rfl
  | [a1, a2], _ => rfl
  | [a1, a2, a3], _ => rfl
  | [a1, a2, a3, a4], _ => rfl
  | [a1, a2, a3, a4, a5], _ => rfl
  | [a1, a2, a3, a4, a5, a6], _ => rfl
  | [a1, a2, a3, a4, a5, a6, a7], _ => rfl
  | [a1, a2, a3, a4, a5, a6, a7, a8], _ => rfl
  | [a1, a2, a3, a4, a5, a6, a7, a8, a9], _ => rfl
  | [a1, a2, a3, a4, a5, a6, a7, a8, a9, a10], _ => rfl
  | [a1, a2, a3, a4, a5, a6, a7, a8, a9, a10, a11], _ => rfl
  | [a1, a2, a3, a4, a5, a6, a7, a8, a9, a10, a11, a12], _ => rfl
  | [a1, a2, a3, a4, a5, a6, a7, a8, a9, a10, a11, a12, a13], _ => rfl
  | [a1, a2, a3, a4, a5, a6, a7, a8, a9, a10, a11, a12, a13, a14], _ => rfl
  | [a1, a2, a3, a4, a5, a6, a7, a8, a9, a10, a11, a12, a13, a14, a15], _ => rfl
  | [a1, a2, a3, a4, a5, a6, a7, a8, a9, a10, a11, a12, a13, a14, a15, a16], _ => rfl
  | [a1, a2, a3, a4, a5, a6, a7, a8, a9, a10, a11, a12, a13, a14, a15, a16, a17], _ => rfl
  | [a1, a2, a3, a4, a5, a6, a7, a8, a9, a10, a11, a12, a13, a14, a15, a16, a17, a18], _ => rfl
  | [a1, a2, a3, a4, a5, a6, a7, a8, a9, a10, a11, a12, a13, a14, a15, a16, a17, a18, a19], _ => rfl
  | [a1, a2, a3, a4, a5, a6, a7, a8, a9, a10, a11, a12, a13, a14, a15, a16, a17, a18, a19, a20], _ => rfl
  | a1 :: a2 :: a3 :: a4 :: a5 :: a6 :: a7 :: a8 :: a9 :: a10 :: a11 :: a12 :: a13 :: a14 :: a15 :: a16 :: a17 :: a18 :: a19 :: a20 :: a21 :: _, h => by simp at h

lemma fmtCore_take20 (l : List Char) : fmtCore (l.take 20) = fmtCore l := by
  by_cases h : l.length ≤ 20
  · rw [List.take_of_length_le h]
  · push_neg at h
    have h20 : (l.take 20).length = 20 := by
      simp [List.length_take]
      omega
    have h7 : ¬ l.length ≤ 7 := by omega
    have h9 : ¬ l.length ≤ 9 := by omega
    have h13 : ¬ l.length ≤ 13 := by omega
    have h14 : ¬ l.length ≤ 14 := by omega
    have h16 : ¬ l.length ≤ 16 := by omega
    simp only [fmtCore, h20, h7, h9, h13, h14, h16, if_false]
    norm_num
    simp [List.take_take, List.drop_take]

lemma fmtCore_eq_mask (l : List Char) : fmtCore l = maskAux 0 (l.take 20) := by
  rw [← fmtCore_take20]
  exact fmtCore_eq_maskAux_of_le _ (by simp)

lemma format_eq_mask (x : List Char) :
    formatProcessNumber x = maskFromSpec (x.filter isDigitChar) := by
  unfold formatProcessNumber maskFromSpec
  exact fmtCore_eq_mask _

lemma sepBefore_cases (i : Nat) :
    sepBefore i = [] ∨ sepBefore i = ['-'] ∨ sepBefore i = ['.'] := by
  unfold sepBefore
  split
  · exact Or.inr (Or.inl rfl)
  · split
    · exact Or.inr (Or.inr rfl)
    · exact Or.inl rfl

lemma filter_sepBefore (i : Nat) : (sepBefore i).filter isDigitChar = [] := by
  rcases sepBefore_cases i with h | h | h <;> rw [h] <;> decide

lemma maskAux_append (l₁ l₂ : List Char) (i : Nat) :
    maskAux i (l₁ ++ l₂) = maskAux i l₁ ++ maskAux (i + l₁.length) l₂ := by
  induction l₁ generalizing i with
  | nil => simp [maskAux]
  | cons c cs ih =>
      simp only [List.cons_append, maskAux, List.length_cons, List.append_eq]
      rw [ih (i + 1), show i + (cs.length + 1) = i + 1 + cs.length from by omega]
      simp [List.append_assoc]

lemma filter_maskAux (l : List Char) (i : Nat) (hd : ∀ c ∈ l, isDigitChar c) :
    (maskAux i l).filter isDigitChar = l := by
  induction l generalizing i with
  | nil => rfl
  | cons c cs ih =>
      have hc : isDigitChar c := hd c (by simp)
      simp only [maskAux, List.filter_append, filter_sepBefore, List.filter_cons, hc,
        List.nil_append, if_true]
      rw [ih (i + 1) (fun x hx => hd x (by simp [hx]))]

lemma digit_not_sep {c : Char} (h : isDigitChar c = true) : isSepChar c = false := by
  unfold isSepChar
  by_cases h1 : c = '-'
  · subst h1; exact absurd h (by decide)
  · by_cases h2 : c = '.'
    · subst h2; exact absurd h (by decide)
    · simp [h1, h2]

lemma maskAux_ne_nil {l : List Char} (h : l ≠ []) (i : Nat) : maskAux i l ≠ [] := by
  cases l with
  | nil => exact absurd rfl h
  | cons c cs => simp [maskAux]

lemma noConsecSep_cons {c : Char} {l : List Char} (hc : isSepChar c = false)
    (hl : noConsecSep l = true) : noConsecSep (c :: l) = true := by
  cases l with
  | nil => rfl
  | cons b bs => simp [noConsecSep, hc, hl]

lemma maskAux_noConsec (l : List Char) (i : Nat) (hd : ∀ c ∈ l, isDigitChar c) :
    noConsecSep (maskAux i l) = true := by
  induction l generalizing i with
  | nil => rfl
  | cons c cs ih =>
      have hc : isSepChar c = false := digit_not_sep (hd c (by simp))
      have hM : noConsecSep (c :: maskAux (i + 1) cs) = true :=
        noConsecSep_cons hc (ih (i + 1) (fun x hx => hd x (by simp [hx])))
      rcases sepBefore_cases i with h | h | h <;>
        simp only [maskAux, h, List.nil_append, List.cons_append, List.append_nil]
      · exact hM
      · cases hs : maskAux (i + 1) cs <;>
          simp_all [noConsecSep, isSepChar, hc]
      · cases hs : maskAux (i + 1) cs <;>
          simp_all [noConsecSep, isSepChar, hc]

lemma maskAux_head (l : List Char) (hd : ∀ c ∈ l, isDigitChar c) :
    ∀ c, (maskAux 0 l).head? = some c → isDigitChar c = true := by
  cases l with
  | nil => intro c h; exact absurd h (by simp [maskAux])
  | cons b bs =>
      intro c h
      have : b = c := by
        simpa [maskAux, sepBefore] using h
      subst this
      exact hd b (by simp)

lemma maskAux_last (l : List Char) (i : Nat) (hd : ∀ c ∈ l, isDigitChar c) :
    ∀ c, (maskAux i l).getLast? = some c → isDigitChar c = true := by
  induction l generalizing i with
  | nil => intro c h; exact absurd h (by simp [maskAux])
  | cons b bs ih =>
      intro c h
      cases hbs : bs with
      | nil =>
          subst hbs
          have : b = c := by
            rcases sepBefore_cases i with hs | hs | hs <;>
              simpa [maskAux, hs, List.getLast?_append] using h
          subst this
          exact hd b (by simp)
      | cons d ds =>
          rw [maskAux, List.getLast?_append] at h
          rcases hM : maskAux (i + 1) bs with _ | ⟨m, ms⟩
          · exact absurd hM (maskAux_ne_nil (by simp [hbs]) (i + 1))
          · rw [hbs] at hM ih hd
            rw [hbs, hM] at h
            have hlast : (m :: ms).getLast? = some c := by
              rcases hg : (m :: ms).getLast? with _ | g
              · exact absurd hg (by simp)
              · simp only [List.getLast?_cons_cons, hg, Option.or] at h
                simpa [hg] using h
            exact ih (i + 1) (fun x hx => hd x (by simp [hx])) c (hM ▸ hlast)

lemma format_length_le (x : List Char) : (formatProcessNumber x).length ≤ 25 := by
  unfold formatProcessNumber fmtCore
  split_ifs <;>
    (try simp only [List.length_append, List.length_take, List.length_drop,
      List.length_cons]) <;>
    omega

lemma digits_filter_eq {d : List Char} (hd : ∀ c ∈ d, isDigitChar c) :
    d.filter isDigitChar = d :=
  List.filter_eq_self.mpr hd

lemma format_digits (d : List Char) (hd : ∀ c ∈ d, isDigitChar c) :
    formatProcessNumber d = maskAux 0 (d.take 20) := by
  rw [format_eq_mask, digits_filter_eq hd, maskFromSpec]

lemma extract_format (x : List Char) :
    extractDigits (formatProcessNumber x) = (extractDigits x).take 20 := by
  rw [format_eq_mask, maskFromSpec, extractDigits, extractDigits]
  exact filter_maskAux _ 0
    (fun c hc => (List.mem_filter.mp (List.take_subset 20 _ hc)).2)

/-- Claim C4: a digit run of at most 7 digits is rendered unchanged, and
the mask renders 9, 13 and 20 digit runs as `1234567-89`,
`1234567-89.0123` and `1234567-89.0123.4.56.7890` respectively. -/
theorem format_short_and_examples :
    (∀ d : List Char, (∀ c ∈ d, isDigitChar c) → d.length ≤ 7 →
        formatProcessNumber d = d) ∧
    formatProcessNumber ("123456789".toList) = "1234567-89".toList ∧
    formatProcessNumber ("1234567890123".toList) = "1234567-89.0123".toList ∧
    formatProcessNumber ("12345678901234567890".toList) =
      "1234567-89.0123.4.56.7890".toList := by
  refine ⟨fun d hd hlen => ?_, by decide, by decide, by decide⟩
  rw [formatProcessNumber, digits_filter_eq hd, fmtCore, if_pos hlen]

/-- Witness for C4 at the concrete digit runs of the claim. -/
theorem format_short_and_examples_witness :
    formatProcessNumber ("1234567".toList) = "1234567".toList :=
  format_short_and_examples.1 _ (by decide) (by decide)

/-- Counterexample to claim C5 as stated: a digit run of 21 digits is not
reproduced in full — the mask truncates it to 20 digits. -/
theorem format_drops_digit_21 :
    (extractDigits (formatProcessNumber ("123456789012345678901".toList))).length ≠
      ("123456789012345678901".toList).length := by decide

lemma extract_format_digits (d : List Char) (hd : ∀ c ∈ d, isDigitChar c) :
    extractDigits (formatProcessNumber d) = d.take 20 := by
  rw [extract_format, extractDigits, digits_filter_eq hd]

/-- Claim C5 (amended to truncation at 20 digits): on a digit run `d` the
formatter coincides with the spec mask — the first `min n 20` digits in
original order with separators exactly at the 7-2-4-1-2-4 boundaries. -/
theorem format_is_spec_mask (d : List Char) (hd : ∀ c ∈ d, isDigitChar c) :
    formatProcessNumber d = maskFromSpec d ∧
    extractDigits (formatProcessNumber d) = d.take 20 := by
  constructor
  · rw [format_eq_mask, digits_filter_eq hd]
  · exact extract_format_digits d hd

/-- Witness for the amended C5 at a 9-digit run. -/
theorem format_is_spec_mask_witness :
    formatProcessNumber ("123456789".toList) = maskFromSpec ("123456789".toList) :=
  (format_is_spec_mask _ (by decide)).1

/-- Claim C6: extracting the digits of the formatted output returns the
digits of the raw input truncated to the first 20, for every input. -/
theorem extract_format_eq_take20 (x : List Char) :
    extractDigits (formatProcessNumber x) = (extractDigits x).take 20 :=
  extract_format x

/-- Claim C9: the formatter is idempotent on arbitrary input, since it
depends only on the digit run it extracts. -/
theorem format_idempotent (x : List Char) :
    formatProcessNumber (formatProcessNumber x) = formatProcessNumber x := by
  rw [format_eq_mask x, maskFromSpec]
  rw [formatProcessNumber]
  rw [filter_maskAux _ 0
    (fun c hc => (List.mem_filter.mp (List.take_subset 20 _ hc)).2)]
  rw [fmtCore_eq_mask, List.take_take, min_self]

/-- Claim C7: on digit runs of at most 20 digits the formatter is monotone
in the typed prefix — the rendering of a prefix is a string prefix of the
rendering of the whole run — and distinct digit runs render distinctly. -/
theorem format_monotone_injective :
    (∀ p d : List Char, (∀ c ∈ d, isDigitChar c) → d.length ≤ 20 → p <+: d →
      formatProcessNumber p <+: formatProcessNumber d) ∧
    (∀ p q : List Char, (∀ c ∈ p, isDigitChar c) → (∀ c ∈ q, isDigitChar c) →
      p.length ≤ 20 → q.length ≤ 20 →
      formatProcessNumber p = formatProcessNumber q → p = q) := by
  constructor
  · rintro p d hd hlen ⟨r, rfl⟩
    have hp : ∀ c ∈ p, isDigitChar c := fun c hc => hd c (by simp [hc])
    have hplen : p.length ≤ 20 := by
      have := List.length_append p r
      omega
    rw [format_digits _ hd, format_digits _ hp,
      List.take_of_length_le hplen, List.take_of_length_le hlen,
      maskAux_append]
    exact List.prefix_append _ _
  · intro p q hp hq hplen hqlen heq
    have h1 := extract_format_digits p hp
    have h2 := extract_format_digits q hq
    rw [heq, h2, List.take_of_length_le hqlen] at h1
    rw [List.take_of_length_le hplen] at h1
    exact h1.symm

/-- Witness for C7: the 7-digit prefix renders as a prefix of the 9-digit
rendering, and two distinct runs render distinctly. -/
theorem format_monotone_injective_witness :
    formatProcessNumber ("1234567".toList) <+:
      formatProcessNumber ("123456789".toList) :=
  format_monotone_injective.1 _ _ (by decide) (by decide) (by decide)

/-- Claim C8: for every input, the rendered output has no two adjacent
separators, neither starts nor ends with a separator, and is at most 25
characters long. -/
theorem format_separator_hygiene (x : List Char) :
    noConsecSep (formatProcessNumber x) = true ∧
    (∀ c, (formatProcessNumber x).head? = some c → isSepChar c = false) ∧
    (∀ c, (formatProcessNumber x).getLast? = some c → isSepChar c = false) ∧
    (formatProcessNumber x).length ≤ 25 := by
  have hdig : ∀ c ∈ (x.filter isDigitChar).take 20, isDigitChar c :=
    fun c hc => (List.mem_filter.mp (List.take_subset 20 _ hc)).2
  have hx : formatProcessNumber x = maskAux 0 ((x.filter isDigitChar).take 20) := by
    rw [format_eq_mask, maskFromSpec]
  refine ⟨?_, ?_, ?_, format_length_le x⟩
  · rw [hx]; exact maskAux_noConsec _ 0 hdig
  · rw [hx]; exact fun c hc => digit_not_sep (maskAux_head _ hdig c hc)
  · rw [hx]; exact fun c hc => digit_not_sep (maskAux_last _ 0 hdig c hc)

/-- Witness for C8 on a concrete mixed input. -/
theorem format_separator_hygiene_witness :
    noConsecSep (formatProcessNumber ("abc-123.456 789x0".toList)) = true ∧
    (formatProcessNumber ("abc-123.456 789x0".toList)).length ≤ 25 ∧
    isSepChar '1' = false :=
  ⟨(format_separator_hygiene _).1, (format_separator_hygiene _).2.2.2,
    (format_separator_hygiene ("abc-123.456 789x0".toList)).2.1 '1' (by decide)⟩

lemma mathCeilDiv_msPerDay (a : Int) :
    mathCeilDiv a msPerDay = ⌈(a : ℚ) / (86400000 : ℚ)⌉ := by
  have h1 : ⌈(a : ℚ) / (86400000 : ℚ)⌉ =
      -⌊(((-a : Int)) : ℚ) / (((86400000 : Nat)) : ℚ)⌋ := by
    push_cast
    rw [neg_div, Int.floor_neg, neg_neg]
  rw [h1, Rat.floor_intCast_div_natCast]
  unfold mathCeilDiv msPerDay
  rw [Int.fdiv_eq_ediv _ (by norm_num)]
  norm_num

lemma isUrgent_some_days (now days : Int) (s : List Char) (hne : s ≠ [])
    (hdays : getDaysUntilDeadline now s = some days) :
    (isUrgent now (mkCase (some s)) = true ↔ 0 ≤ days ∧ days ≤ 7) := by
  simp [isUrgent, mkCase, hne, hdays, jsLe, jsGe, and_comm]

lemma isUrgent_nan (now : Int) (s : List Char) (hne : s ≠ [])
    (hd : getDaysUntilDeadline now s = none) :
    isUrgent now (mkCase (some s)) = false := by
  simp [isUrgent, mkCase, hne, hd, jsLe, jsGe]

/-- Claim C3: on a parseable deadline the day count is the ceiling of the
millisecond distance divided by 86 400 000; with the clock at
2024-01-01T00:00:00Z, the deadline 2024-01-05T00:00:00Z is 4 days out and
urgent. -/
theorem days_until_is_ceil :
    (∀ (now t : Int) (s : List Char), parseDate s = some t →
      getDaysUntilDeadline now s =
        some ⌈(((t - now : Int)) : ℚ) / (86400000 : ℚ)⌉) ∧
    getDaysUntilDeadline 1704067200000 ("2024-01-05T00:00:00Z".toList) = some 4 ∧
    isUrgent 1704067200000 (mkCase (some ("2024-01-05T00:00:00Z".toList))) = true := by
  refine ⟨fun now t s hp => ?_, by decide, by decide⟩
  simp [getDaysUntilDeadline, hp, mathCeilDiv_msPerDay]

/-- Witness for C3 at the concrete deadline of the claim. -/
theorem days_until_is_ceil_witness :
    getDaysUntilDeadline 1704067200000 ("2024-01-05T00:00:00Z".toList) =
      some ⌈(((1704412800000 - 1704067200000 : Int)) : ℚ) / (86400000 : ℚ)⌉ :=
  days_until_is_ceil.1 1704067200000 1704412800000 _ (by decide)

/-- Claim C2: no deadline means not urgent whatever the clock says, and a
deadline whose day count is a number makes the case urgent exactly when
that count lies in `[0, 7]`; at the concrete dates, eight days out and an
overdue deadline are both not urgent. -/
theorem isUrgent_window :
    (∀ (now : Int) (case_ : LegalCase), case_.deadline_date = none →
      isUrgent now case_ = false) ∧
    (∀ (now days : Int) (s : List Char),
      getDaysUntilDeadline now s = some days →
      (isUrgent now (mkCase (some s)) = true ↔ 0 ≤ days ∧ days ≤ 7)) ∧
    isUrgent 1704067200000 (mkCase (some ("2024-01-09T00:00:00Z".toList))) = false ∧
    isUrgent 1704067200000 (mkCase (some ("2023-12-20T00:00:00Z".toList))) = false := by
  refine ⟨fun now case_ h => ?_, fun now days s hdays => ?_, by decide, by decide⟩
  · rw [isUrgent, h]
  · have hne : s ≠ [] := by
      intro h
      subst h
      simp [getDaysUntilDeadline, show parseDate [] = none from rfl] at hdays
    exact isUrgent_some_days now days s hne hdays

/-- Witness for C2: the absent deadline, and the eight-days-out deadline
through the window equivalence. -/
theorem isUrgent_window_witness :
    isUrgent 0 (mkCase none) = false ∧
    (isUrgent 1704067200000 (mkCase (some ("2024-01-09T00:00:00Z".toList))) = true ↔
      (0 : Int) ≤ 8 ∧ (8 : Int) ≤ 7) :=
  ⟨isUrgent_window.1 0 _ rfl,
    isUrgent_window.2.1 1704067200000 8 _ (by decide)⟩

/-- Claim C1 is refuted by the code: `new Date("not-a-date")` yields an
invalid date rather than throwing, so the day count is `NaN` (`none`) and
never `0`, and the case is classified NOT urgent — the `catch` that would
return `0` is unreachable. -/
theorem unparseable_deadline_not_urgent (now : Int) :
    getDaysUntilDeadline now ("not-a-date".toList) = none ∧
    getDaysUntilDeadline now ("not-a-date".toList) ≠ some 0 ∧
    isUrgent now (mkCase (some ("not-a-date".toList))) = false := by
  have hp : parseDate ("not-a-date".toList) = none := by decide
  have hd : getDaysUntilDeadline now ("not-a-date".toList) = none := by
    unfold getDaysUntilDeadline
    rw [hp]
  exact ⟨hd, by rw [hd]; exact fun h => absurd h (by decide),
    isUrgent_nan now _ (by decide) hd⟩

/-- Witness for C1 at the clock of the other concrete examples. -/
theorem unparseable_deadline_not_urgent_witness :
    getDaysUntilDeadline 1704067200000 ("not-a-date".toList) = none :=
  (unparseable_deadline_not_urgent 1704067200000).1

/-- Claim C10: every falsy `deadline_date` — absent or the empty string —
is classified not urgent, whatever the clock says. -/
theorem falsy_deadline_not_urgent (now : Int) (case_ : LegalCase)
    (h : case_.deadline_date = none ∨ case_.deadline_date = some []) :
    isUrgent now case_ = false := by
  rcases h with h | h <;> simp [isUrgent, h]

/-- Witness for C10 at the empty-string deadline. -/
theorem falsy_deadline_not_urgent_witness :
    isUrgent 1704067200000 (mkCase (some [])) = false :=
  falsy_deadline_not_urgent 1704067200000 _ (Or.inr rfl)

end B3
